import Mathlib

/-!
Verification of the ASP federation engine (FederationManager and its
persistence layer) against its natural-language specification.

The definitions below are a shallow embedding of the TypeScript source:
  - trust policy and configuration (federation.ts: trustsInstance,
    allowInstance, blockInstance, getMetadata),
  - the signature codec (signEvent / verifyEventSignature),
  - the outbox log and its cursor pagination (getOutboxEvents),
  - the delivery queue (queueForDelivery, processDeliveryQueue),
  - inbound event processing with listener dispatch (processInboundEvent),
  - the persistence port and restart load path (loadFromStorage).

Timestamps are modelled as Nat milliseconds; JavaScript Maps are modelled
as association lists in insertion order; JavaScript Sets of strings are
modelled as Finset String (for the trust sets, where only membership
matters) or as lists (for delivered-to sets, where insertion order is kept).
-/

namespace ASP

/-- Trust modes for federation (TypeScript union type TrustMode).
The source's mode string "open" is spelled openFed here because open is a
Lean keyword. -/
inductive TrustMode where
  | openFed
  | allowlist
  | blocklist
  | closed
deriving DecidableEq, Repr

/-- Instance trust configuration (interface InstanceTrust): a mode plus
allow and block sets of instance URIs. -/
structure InstanceTrust where
  mode : TrustMode
  allowlist : Finset String
  blocklist : Finset String
deriving DecidableEq

/-- Federation configuration (interface FederationConfig). The signing key
is an abstract key identifier (see the signature codec model below). -/
structure FederationConfig where
  enabled : Bool
  instanceUri : String
  trust : InstanceTrust
  signingKey : Option Nat
deriving DecidableEq

/-- FederationManager.trustsInstance: the trust decision function.
Returns false when federation is disabled; otherwise dispatches on the
trust mode exactly as the source's switch statement. -/
def trustsInstance (config : FederationConfig) (instanceUri : String) : Bool :=
  if !config.enabled then false
  else
    match config.trust.mode with
    | .closed => false
    | .openFed => !(decide (instanceUri ∈ config.trust.blocklist))
    | .blocklist => !(decide (instanceUri ∈ config.trust.blocklist))
    | .allowlist => decide (instanceUri ∈ config.trust.allowlist)

/-- FederationManager.allowInstance: add to the allowlist and remove from
the blocklist (the persistence side effect only mirrors the sets and is
modelled separately). -/
def allowInstance (t : InstanceTrust) (instanceUri : String) : InstanceTrust :=
  { t with
    allowlist := insert instanceUri t.allowlist
    blocklist := t.blocklist.erase instanceUri }

/-- FederationManager.blockInstance: add to the blocklist and remove from
the allowlist. -/
def blockInstance (t : InstanceTrust) (instanceUri : String) : InstanceTrust :=
  { t with
    blocklist := insert instanceUri t.blocklist
    allowlist := t.allowlist.erase instanceUri }

/-- The result shape of FederationManager.getMetadata. -/
structure Metadata where
  enabled : Bool
  inbox : Option String
  outbox : Option String
  trustMode : TrustMode
deriving DecidableEq, Repr

/-- FederationManager.getMetadata: the discovery document fields. -/
def getMetadata (config : FederationConfig) : Metadata :=
  if !config.enabled then
    { enabled := false, inbox := none, outbox := none, trustMode := .closed }
  else
    { enabled := true
      inbox := some (config.instanceUri ++ "/federation/inbox")
      outbox := some (config.instanceUri ++ "/federation/outbox")
      trustMode := config.trust.mode }

/-- Event kinds carried by federation events (FederationEvent.type in
types.ts: PostCreated, PostDeleted, CommentCreated, CommentDeleted). -/
inductive EventType where
  | PostCreated
  | PostDeleted
  | CommentCreated
  | CommentDeleted
deriving DecidableEq, Repr

/-- The wire spelling of an event kind, as it appears in the signing
payload (the TypeScript string literal of the union member). -/
def EventType.toWire : EventType → String
  | .PostCreated => "PostCreated"
  | .PostDeleted => "PostDeleted"
  | .CommentCreated => "CommentCreated"
  | .CommentDeleted => "CommentDeleted"

/-- Modelled from the spec: the elliptic-curve signing primitive used by the
code (ethers.js signMessageSync / verifyMessage) is an external library and
is not part of this repository. Per the spec, the signer's identity is
recoverable from signature plus message, and verification yields null on a
malformed signature or a payload that does not match the signed one. A
signature is therefore either a well-formed signature by a key over a
message, or malformed. -/
inductive Sig where
  | wellFormed (signerKey : Nat) (message : String)
  | malformed
deriving DecidableEq, Repr

/-- Modelled from the spec: the public identity (wallet address) derived
from a signing key by the external elliptic-curve library. -/
def walletAddress (key : Nat) : String :=
  "0xaddr-" ++ toString key

/-- Modelled from the spec: ethers wallet.signMessageSync, producing a
well-formed signature over the message by the configured key. -/
def signMessageSync (key : Nat) (message : String) : Sig :=
  .wellFormed key message

/-- Modelled from the spec: ethers.verifyMessage recovers the signer's
identity from signature plus message; a malformed signature or a message
other than the signed one yields no identity (the TypeScript caller turns
the library's exception into null). -/
def verifyMessage (message : String) (s : Sig) : Option String :=
  match s with
  | .wellFormed k m => if m = message then some (walletAddress k) else none
  | .malformed => none

/-- A federation wire envelope (interface FederationEvent): type tag,
origin instance, timestamp, content object (modelled by its canonical
JSON serialization), and signature. -/
structure FederationEvent where
  type : EventType
  origin : String
  timestamp : String
  object : String
  signature : Sig
deriving DecidableEq, Repr

/-- The canonical signing payload: the deterministic concatenation
type | origin | timestamp | JSON(object) built by both signEvent and
verifyEventSignature. -/
def canonicalMessage (type : EventType) (origin timestamp object : String) : String :=
  type.toWire ++ "|" ++ origin ++ "|" ++ timestamp ++ "|" ++ object

/-- An unsigned event, the argument shape of signEvent
(Omit FederationEvent signature). -/
structure UnsignedEvent where
  type : EventType
  origin : String
  timestamp : String
  object : String
deriving DecidableEq, Repr

/-- FederationManager.signEvent: throws when no signing key is configured,
otherwise signs the canonical payload with the configured key. -/
def signEvent (config : FederationConfig) (e : UnsignedEvent) :
    Except String FederationEvent :=
  match config.signingKey with
  | none => .error "No signing key configured for federation"
  | some key =>
    .ok
      { type := e.type
        origin := e.origin
        timestamp := e.timestamp
        object := e.object
        signature :=
          signMessageSync key (canonicalMessage e.type e.origin e.timestamp e.object) }

/-- FederationManager.verifyEventSignature: recovers the signer address
from the event's signature over the canonical payload, null on failure. -/
def verifyEventSignature (event : FederationEvent) : Option String :=
  verifyMessage (canonicalMessage event.type event.origin event.timestamp event.object)
    event.signature

/-- The result shape of FederationManager.processInboundEvent. -/
structure InboundResult where
  accepted : Bool
  reason : Option String
deriving DecidableEq, Repr

/-- The rejection/acceptance decision of processInboundEvent, in the
source's check order: federation enabled, trust gate, origin-spoofing
guard, signature verification. -/
def inboundCheck (config : FederationConfig) (event : FederationEvent)
    (sourceInstance : String) : InboundResult :=
  if !config.enabled then
    { accepted := false, reason := some "Federation disabled" }
  else if !trustsInstance config sourceInstance then
    { accepted := false, reason := some "Instance not trusted" }
  else if event.origin ≠ sourceInstance then
    { accepted := false, reason := some "Origin mismatch" }
  else
    match verifyEventSignature event with
    | none => { accepted := false, reason := some "Invalid signature" }
    | some _ => { accepted := true, reason := none }

/-- A local listener is a function that may throw (Except models the
TypeScript exception). -/
def Listener : Type := FederationEvent → Except String Unit

/-- What happened to one listener during dispatch: it ran fine, or it threw
and the exception was caught and logged. -/
inductive ListenerOutcome where
  | ran
  | errorLogged (msg : String)
deriving DecidableEq, Repr

/-- The try/catch around one listener invocation: an exception is caught
and logged rather than propagated. -/
def listenerOutcome (event : FederationEvent) (listener : Listener) :
    ListenerOutcome :=
  match listener event with
  | .ok _ => .ran
  | .error e => .errorLogged e

/-- The forEach-with-try/catch dispatch loop of processInboundEvent: every
listener is invoked once, in order; a thrown exception is caught and logged
and the loop continues with the remaining listeners. -/
def notifyListeners (listeners : List Listener) (event : FederationEvent) :
    List ListenerOutcome :=
  listeners.map (listenerOutcome event)

/-- FederationManager.processInboundEvent: runs the checks; on acceptance
dispatches to every registered listener (returning the dispatch trace), on
rejection no listener runs. The returned result is unaffected by listener
outcomes. -/
def processInboundEvent (config : FederationConfig) (listeners : List Listener)
    (event : FederationEvent) (sourceInstance : String) :
    InboundResult × List ListenerOutcome :=
  let r := inboundCheck config event sourceInstance
  if r.accepted then (r, notifyListeners listeners event) else (r, [])

/-- An outbox log entry (interface OutboxEvent): id, wire event, creation
time, and the set of instance URIs that have received it (modelled as a
list in insertion order, as a JavaScript Set iterates). -/
structure OutboxEvent where
  id : String
  event : FederationEvent
  created : Nat
  delivered : List String
deriving DecidableEq, Repr

/-- The limit clamp of getOutboxEvents: Math.min(options.limit or 50, 200),
where the JavaScript or-default also replaces an explicit 0 by 50. -/
def computeLimit (limitOpt : Option Nat) : Nat :=
  min
    (match limitOpt with
     | none => 50
     | some 0 => 50
     | some n => n)
    200

/-- The iteration loop of FederationManager.getOutboxEvents over the outbox
map (insertion order): while the since cursor has not been found, entries
are skipped (the cursor entry itself flips the flag and is skipped);
afterwards events are accumulated, the cursor tracking the last id taken,
stopping once the accumulated page reaches the limit. -/
def collectSince (since : Option String) :
    List (String × OutboxEvent) → Bool → Nat → List FederationEvent →
    Option String → List FederationEvent × Option String
  | [], _, _, events, cursor => (events, cursor)
  | (id, entry) :: rest, foundSince, limit, events, cursor =>
    if !foundSince then
      collectSince since rest (decide (some id = since)) limit events cursor
    else
      let events' := events ++ [entry.event]
      let cursor' := some id
      if events'.length ≥ limit then (events', cursor')
      else collectSince since rest true limit events' cursor'

/-- FederationManager.getOutboxEvents: cursor pagination over the outbox
log in insertion (sequence) order. -/
def getOutboxEvents (outboxQueue : List (String × OutboxEvent))
    (since : Option String) (limitOpt : Option Nat) :
    List FederationEvent × Option String :=
  let limit := computeLimit limitOpt
  collectSince since outboxQueue since.isNone limit [] none

/-- Delivery attempt status (the status union of interface
DeliveryAttempt). -/
inductive DeliveryStatus where
  | pending
  | delivered
  | failed
deriving DecidableEq, Repr

/-- A delivery attempt record (interface DeliveryAttempt). Timestamps are
milliseconds since the epoch. -/
structure DeliveryAttempt where
  instanceUri : String
  eventId : String
  attemptCount : Nat
  lastAttempt : Nat
  nextAttempt : Nat
  status : DeliveryStatus
  lastError : Option String
deriving DecidableEq, Repr

/-- The retry budget (MAX_RETRY_ATTEMPTS). -/
def MAX_RETRY_ATTEMPTS : Nat := 5

/-- The fixed backoff ladder in milliseconds (RETRY_BACKOFF_MS):
1s, 5s, 30s, 2m, 10m. -/
def RETRY_BACKOFF_MS : List Nat := [1000, 5000, 30000, 120000, 600000]

/-- The delivery-queue key for a (target instance, event) pair, exactly the
template string of the source. -/
def deliveryKey (instanceUri eventId : String) : String :=
  instanceUri ++ ":" ++ eventId

/-- The fresh attempt created by queueForDelivery: zero attempts, last
attempt at the epoch (new Date(0)), next attempt now, status pending. -/
def freshAttempt (instanceUri eventId : String) (now : Nat) : DeliveryAttempt :=
  { instanceUri := instanceUri
    eventId := eventId
    attemptCount := 0
    lastAttempt := 0
    nextAttempt := now
    status := .pending
    lastError := none }

/-- Whether the delivery-queue map has an entry under a key
(deliveryQueue.has). -/
def hasDeliveryKey (queue : List (String × DeliveryAttempt)) (key : String) : Bool :=
  queue.any fun p => p.1 = key

/-- The loop body of queueForDelivery for one target: insert a fresh
pending attempt keyed by the (instance, event) pair unless the key is
already present. Insertion appends, matching Map insertion order. -/
def enqueueTarget (eventId : String) (now : Nat)
    (q : List (String × DeliveryAttempt)) (instanceUri : String) :
    List (String × DeliveryAttempt) :=
  let key := deliveryKey instanceUri eventId
  if hasDeliveryKey q key then q
  else q ++ [(key, freshAttempt instanceUri eventId now)]

/-- FederationManager.queueForDelivery: run the insert-unless-present body
over every target. -/
def queueForDelivery (queue : List (String × DeliveryAttempt)) (eventId : String)
    (now : Nat) (targets : List String) : List (String × DeliveryAttempt) :=
  targets.foldl (enqueueTarget eventId now) queue

/-- The outcome of one push to a remote inbox (pushToInstance): success, or
failure with the recorded error text. -/
inductive PushResult where
  | success
  | failure (error : String)
deriving DecidableEq, Repr

/-- The per-attempt body of FederationManager.processDeliveryQueue for one
drain cycle, given whether the outbox event still exists and the push
outcome: non-pending or not-yet-due attempts are skipped unchanged; an
attempt whose event was pruned is dropped (none); otherwise the attempt
count and last-attempt time advance and the attempt is marked delivered on
success, or on failure records the error and either becomes failed once the
retry budget is reached or is rescheduled by the backoff ladder indexed by
attemptCount - 1 clamped to the ladder's last entry. -/
def stepDeliveryAttempt (now : Nat) (eventExists : Bool) (result : PushResult)
    (a : DeliveryAttempt) : Option DeliveryAttempt :=
  if a.status ≠ .pending ∨ now < a.nextAttempt then some a
  else if !eventExists then none
  else
    let a1 := { a with attemptCount := a.attemptCount + 1, lastAttempt := now }
    match result with
    | .success => some { a1 with status := .delivered }
    | .failure err =>
      let a2 := { a1 with lastError := some err }
      if MAX_RETRY_ATTEMPTS ≤ a2.attemptCount then
        some { a2 with status := .failed }
      else
        some
          { a2 with
            nextAttempt :=
              now +
                RETRY_BACKOFF_MS.getD
                  (min (a2.attemptCount - 1) (RETRY_BACKOFF_MS.length - 1)) 0 }

/-- A known remote instance record (interface RemoteInstance). -/
structure RemoteInstance where
  uri : String
  version : String
  inbox : Option String
  outbox : Option String
  trustMode : TrustMode
  lastSeen : Nat
  lastError : Option String
deriving DecidableEq, Repr

/-- A persisted remote instance row (interface PersistedRemoteInstance),
carrying the local allow/block flags alongside the record. -/
structure PersistedRemoteInstance where
  uri : String
  version : String
  inbox : Option String
  outbox : Option String
  trustMode : TrustMode
  lastSeen : Nat
  lastError : Option String
  isAllowed : Bool
  isBlocked : Bool
deriving DecidableEq, Repr

/-- A persisted outbox row (interface PersistedOutboxEvent). -/
structure PersistedOutboxEvent where
  id : String
  event : FederationEvent
  created : Nat
  deliveredTo : List String
deriving DecidableEq, Repr

/-- A persisted delivery-attempt row (interface PersistedDeliveryAttempt). -/
structure PersistedDeliveryAttempt where
  key : String
  instanceUri : String
  eventId : String
  attemptCount : Nat
  lastAttempt : Nat
  nextAttempt : Nat
  status : DeliveryStatus
  lastError : Option String
deriving DecidableEq, Repr

/-- The contents of a FederationStorage backend: the three persisted
tables. -/
structure FedStore where
  instances : List PersistedRemoteInstance
  outbox : List PersistedOutboxEvent
  deliveries : List PersistedDeliveryAttempt
deriving DecidableEq, Repr

/-- FederationStorage.getOutboxEvents: rows ordered by creation time
ascending (ORDER BY created ASC), advanced past a since cursor when that id
is found, truncated to the limit (default 100). -/
def storeGetOutboxEvents (s : FedStore) (limitOpt : Option Nat)
    (since : Option String) : List PersistedOutboxEvent :=
  let limit :=
    match limitOpt with
    | none => 100
    | some n => if n = 0 then 100 else n
  let sorted : List PersistedOutboxEvent :=
    s.outbox.insertionSort fun a b => a.created ≤ b.created
  let after :=
    match since with
    | none => sorted
    | some c =>
      match sorted.findIdx? (fun (e : PersistedOutboxEvent) => decide (e.id = c)) with
      | some i => sorted.drop (i + 1)
      | none => sorted
  after.take limit

/-- FederationStorage.getPendingDeliveries: the rows with status pending
and next attempt at or before the bound, ordered by next attempt
ascending. -/
def storeGetPendingDeliveries (s : FedStore) (beforeTime : Nat) :
    List PersistedDeliveryAttempt :=
  (s.deliveries.filter fun a =>
      decide (a.status = .pending) && decide (a.nextAttempt ≤ beforeTime)).insertionSort
    fun a b => a.nextAttempt ≤ b.nextAttempt

/-- The mutable state owned by a FederationManager: configuration, known
instances, outbox log with its id counter, and the delivery queue (maps
modelled as association lists in insertion order). -/
structure ManagerState where
  config : FederationConfig
  knownInstances : List (String × RemoteInstance)
  outboxQueue : List (String × OutboxEvent)
  outboxIdCounter : Nat
  deliveryQueue : List (String × DeliveryAttempt)
deriving DecidableEq

/-- The counter-restore pattern of loadFromStorage: the source matches the
id against the regular expression for a trailing outbox path segment
(slash, the literal outbox, slash, digits at the end) and parses the
digits. -/
def parseOutboxSeq (id : String) : Option Nat :=
  match (id.splitOn "/").reverse with
  | numStr :: seg :: _ => if seg = "outbox" then numStr.toNat? else none
  | _ => none

/-- Conversion of a persisted instance row back to the in-memory record, as
done by loadFromStorage. -/
def toRemoteInstance (i : PersistedRemoteInstance) : RemoteInstance :=
  { uri := i.uri, version := i.version, inbox := i.inbox, outbox := i.outbox
    trustMode := i.trustMode, lastSeen := i.lastSeen, lastError := i.lastError }

/-- Conversion of a persisted outbox row back to the in-memory entry. -/
def toOutboxEvent (e : PersistedOutboxEvent) : OutboxEvent :=
  { id := e.id, event := e.event, created := e.created, delivered := e.deliveredTo }

/-- Conversion of a persisted delivery row back to the in-memory attempt. -/
def toDeliveryAttempt (d : PersistedDeliveryAttempt) : DeliveryAttempt :=
  { instanceUri := d.instanceUri, eventId := d.eventId
    attemptCount := d.attemptCount, lastAttempt := d.lastAttempt
    nextAttempt := d.nextAttempt, status := d.status, lastError := d.lastError }

/-- FederationManager.loadFromStorage, run at construction over a populated
store: restores known instances (re-adding allow/block flags to the trust
sets), the outbox log (up to 1000 events) with the id counter recovered
from the highest parsed outbox sequence id, and the delivery queue from the
pending rows due within the next 24 hours. No network call is involved. -/
def loadFromStorage (config : FederationConfig) (now : Nat) (s : FedStore) :
    ManagerState :=
  let instances := s.instances
  let knownInstances := instances.map fun i => (i.uri, toRemoteInstance i)
  let trust :=
    instances.foldl
      (fun t i =>
        let t1 :=
          if i.isAllowed then { t with allowlist := insert i.uri t.allowlist } else t
        if i.isBlocked then { t1 with blocklist := insert i.uri t1.blocklist } else t1)
      config.trust
  let outboxEvents := storeGetOutboxEvents s (some 1000) none
  let outboxQueue := outboxEvents.map fun e => (e.id, toOutboxEvent e)
  let counter :=
    outboxEvents.foldl
      (fun c e =>
        match parseOutboxSeq e.id with
        | some n => if c < n then n else c
        | none => c)
      0
  let deliveries := storeGetPendingDeliveries s (now + 86400000)
  let deliveryQueue := deliveries.map fun d => (d.key, toDeliveryAttempt d)
  { config := { config with trust := trust }
    knownInstances := knownInstances
    outboxQueue := outboxQueue
    outboxIdCounter := counter
    deliveryQueue := deliveryQueue }

/-- FederationManager.getKnownInstances: the values of the instance map. -/
def getKnownInstances (m : ManagerState) : List RemoteInstance :=
  m.knownInstances.map Prod.snd

/-- The result shape of FederationManager.getDeliveryQueueStatus. -/
structure DeliveryQueueStatus where
  pending : Nat
  delivered : Nat
  failed : Nat
  items : List DeliveryAttempt
deriving DecidableEq, Repr

/-- FederationManager.getDeliveryQueueStatus: per-status counts plus the
raw attempt list. -/
def getDeliveryQueueStatus (m : ManagerState) : DeliveryQueueStatus :=
  let items := m.deliveryQueue.map Prod.snd
  { pending := (items.filter fun i => decide (i.status = .pending)).length
    delivered := (items.filter fun i => decide (i.status = .delivered)).length
    failed := (items.filter fun i => decide (i.status = .failed)).length
    items := items }

/-- FederationManager.persistInstance: the persisted row written for an
in-memory instance record, with the allow/block flags read off the current
trust sets. -/
def persistInstance (trust : InstanceTrust) (i : RemoteInstance) :
    PersistedRemoteInstance :=
  { uri := i.uri, version := i.version, inbox := i.inbox, outbox := i.outbox
    trustMode := i.trustMode, lastSeen := i.lastSeen, lastError := i.lastError
    isAllowed := decide (i.uri ∈ trust.allowlist)
    isBlocked := decide (i.uri ∈ trust.blocklist) }

/-- FederationManager.persistOutboxEvent: the persisted row for an outbox
entry. -/
def persistOutboxEvent (e : OutboxEvent) : PersistedOutboxEvent :=
  { id := e.id, event := e.event, created := e.created, deliveredTo := e.delivered }

/-- FederationManager.persistDeliveryAttempt: the persisted row for a
delivery attempt under its queue key. -/
def persistDeliveryAttempt (key : String) (a : DeliveryAttempt) :
    PersistedDeliveryAttempt :=
  { key := key, instanceUri := a.instanceUri, eventId := a.eventId
    attemptCount := a.attemptCount, lastAttempt := a.lastAttempt
    nextAttempt := a.nextAttempt, status := a.status, lastError := a.lastError }

/-- The store contents after a manager has persisted every piece of its
state through the persist functions above (each save is upsert-by-key, so
the store mirrors the latest in-memory state). -/
def persistedImage (m : ManagerState) : FedStore :=
  { instances := m.knownInstances.map fun p => persistInstance m.config.trust p.2
    outbox := m.outboxQueue.map fun p => persistOutboxEvent p.2
    deliveries := m.deliveryQueue.map fun p => persistDeliveryAttempt p.1 p.2 }

/-- A trust mutation: one call to allowInstance or blockInstance. -/
inductive TrustOp where
  | allow (instanceUri : String)
  | block (instanceUri : String)
deriving DecidableEq, Repr

/-- Apply one trust mutation. -/
def applyTrustOp (t : InstanceTrust) : TrustOp → InstanceTrust
  | .allow uri => allowInstance t uri
  | .block uri => blockInstance t uri

/-- Apply a sequence of trust mutations, oldest first. -/
def applyTrustOps (t : InstanceTrust) (ops : List TrustOp) : InstanceTrust :=
  ops.foldl applyTrustOp t

/-! Concrete sample values used by the witness theorems below. -/

/-- A sample allowlist-mode configuration with federation enabled. -/
def cfgAllow : FederationConfig :=
  { enabled := true
    instanceUri := "https://a.example"
    trust :=
      { mode := .allowlist
        allowlist := {"https://b.example"}
        blocklist := ∅ }
    signingKey := none }

/-- A sample configuration with federation disabled but a fully populated
trust state, showing that the disabled gate wins regardless of mode. -/
def cfgDisabled : FederationConfig :=
  { enabled := false
    instanceUri := "https://a.example"
    trust :=
      { mode := .openFed
        allowlist := {"https://b.example"}
        blocklist := {"https://c.example"} }
    signingKey := some 3 }

/-- A sample open-mode configuration with federation enabled. -/
def cfgOpenE : FederationConfig :=
  { enabled := true
    instanceUri := "https://a.example"
    trust := { mode := .openFed, allowlist := ∅, blocklist := ∅ }
    signingKey := some 1 }

/-- A sample configuration holding signing key 7. -/
def cfgSigner : FederationConfig :=
  { enabled := true
    instanceUri := "https://a.example"
    trust := { mode := .openFed, allowlist := ∅, blocklist := ∅ }
    signingKey := some 7 }

/-- A sample unsigned event. -/
def unsignedSample : UnsignedEvent :=
  { type := .PostCreated
    origin := "https://a.example"
    timestamp := "2025-01-01T00:00:00Z"
    object := "obj" }

/-- A sample event carrying a malformed signature: it is not a signature
over its canonical payload (or any message). -/
def malformedSample : FederationEvent :=
  { type := .PostCreated
    origin := "https://a.example"
    timestamp := "2025-01-01T00:00:00Z"
    object := "obj"
    signature := .malformed }

/-- A sample trust state with distinct allow and block entries. -/
def trustSample : InstanceTrust :=
  { mode := .openFed
    allowlist := {"https://b.example"}
    blocklist := {"https://c.example"} }

/-- A sample trust-mutation sequence. -/
def trustOpsSample : List TrustOp :=
  [.allow "https://d.example", .block "https://d.example",
   .allow "https://c.example", .block "https://b.example"]

/-- A correctly signed sample inbound event from origin x, signed with
key 5 over its own canonical payload. -/
def evInbound : FederationEvent :=
  { type := .PostCreated
    origin := "https://x.example"
    timestamp := "2025-01-01T00:00:00Z"
    object := "o"
    signature :=
      .wellFormed 5
        (canonicalMessage .PostCreated "https://x.example" "2025-01-01T00:00:00Z" "o") }

/-- A forged sample inbound event: origin x, but signed with key 2 (the
attacker's key) over the envelope's canonical payload, so verification
recovers the attacker's identity, not x's. -/
def evForged : FederationEvent :=
  { type := .PostCreated
    origin := "https://x.example"
    timestamp := "2025-01-01T00:00:00Z"
    object := "o"
    signature :=
      .wellFormed 2
        (canonicalMessage .PostCreated "https://x.example" "2025-01-01T00:00:00Z" "o") }

/-- A listener that returns normally. -/
def goodListener : Listener := fun _ => .ok ()

/-- A listener that throws. -/
def badListener : Listener := fun _ => .error "boom"

/-- A sample listener list with a throwing listener in the middle. -/
def listenersSample : List Listener := [goodListener, badListener, goodListener]

/-- A sample outbox entry holding the signed inbound sample event. -/
def obEntrySample : OutboxEvent :=
  { id := "https://a.example/outbox/1"
    event := evInbound
    created := 10
    delivered := [] }

/-- A one-entry sample outbox log. -/
def queueSample : List (String × OutboxEvent) :=
  [("https://a.example/outbox/1", obEntrySample)]

/-- A sample delivery attempt that has already been delivered (terminal,
recent enough to still be retained in memory). -/
def attDelivered : DeliveryAttempt :=
  { instanceUri := "https://b.example", eventId := "e1", attemptCount := 1
    lastAttempt := 50, nextAttempt := 0
    status := .delivered, lastError := none }

/-- A sample manager state whose delivery queue holds one delivered
attempt. -/
def mSample : ManagerState :=
  { config := cfgOpenE
    knownInstances := []
    outboxQueue := []
    outboxIdCounter := 0
    deliveryQueue := [("https://b.example:e1", attDelivered)] }

/-- A sample known remote instance. -/
def riB : RemoteInstance :=
  { uri := "https://b.example"
    version := "0.1"
    inbox := some "https://b.example/federation/inbox"
    outbox := none
    trustMode := .openFed
    lastSeen := 42
    lastError := none }

/-- A sample pending delivery attempt awaiting its second try. -/
def attPend : DeliveryAttempt :=
  { instanceUri := "https://b.example"
    eventId := "https://a.example/outbox/1"
    attemptCount := 1
    lastAttempt := 20
    nextAttempt := 1020
    status := .pending
    lastError := some "HTTP 500" }

/-- A sample manager state with one known instance, one outbox entry and
one pending delivery attempt, in loadable form. -/
def mGood : ManagerState :=
  { config := cfgOpenE
    knownInstances := [("https://b.example", riB)]
    outboxQueue := [("https://a.example/outbox/1", obEntrySample)]
    outboxIdCounter := 1
    deliveryQueue := [("https://b.example:https://a.example/outbox/1", attPend)] }

/-! ## Theorems -/

/-- C2: with federation enabled, trustsInstance follows the trust table:
closed denies always; allowlist admits exactly the allow-set members;
open and blocklist admit exactly the non-members of the block set. -/
theorem trustsInstance_mode_table (config : FederationConfig) (remoteId : String)
    (h : config.enabled = true) :
    (config.trust.mode = .closed → trustsInstance config remoteId = false) ∧
    (config.trust.mode = .allowlist →
      (trustsInstance config remoteId = true ↔ remoteId ∈ config.trust.allowlist)) ∧
    ((config.trust.mode = .openFed ∨ config.trust.mode = .blocklist) →
      (trustsInstance config remoteId = true ↔ remoteId ∉ config.trust.blocklist)) := by
  refine ⟨fun hm => ?_, fun hm => ?_, fun hm => ?_⟩
  · simp [trustsInstance, h, hm]
  · simp [trustsInstance, h, hm]
  · rcases hm with hm | hm <;> simp [trustsInstance, h, hm]

/-- Witness for C2 at a concrete allowlist configuration. -/
theorem trustsInstance_mode_table_witness :
    cfgAllow.enabled = true ∧
    ((cfgAllow.trust.mode = .closed →
        trustsInstance cfgAllow "https://b.example" = false) ∧
      (cfgAllow.trust.mode = .allowlist →
        (trustsInstance cfgAllow "https://b.example" = true ↔
          "https://b.example" ∈ cfgAllow.trust.allowlist)) ∧
      ((cfgAllow.trust.mode = .openFed ∨ cfgAllow.trust.mode = .blocklist) →
        (trustsInstance cfgAllow "https://b.example" = true ↔
          "https://b.example" ∉ cfgAllow.trust.blocklist))) :=
  ⟨rfl, trustsInstance_mode_table cfgAllow "https://b.example" rfl⟩

/-- C10: when federation is disabled, trustsInstance denies every URI
regardless of the configured mode and sets, and getMetadata reports
enabled false, trust mode closed, and no inbox or outbox URI. -/
theorem disabled_trust_and_metadata (config : FederationConfig) (remoteId : String)
    (h : config.enabled = false) :
    trustsInstance config remoteId = false ∧
    getMetadata config =
      { enabled := false, inbox := none, outbox := none, trustMode := .closed } := by
  exact ⟨by simp [trustsInstance, h], by simp [getMetadata, h]⟩

/-- Witness for C10 at a concrete disabled configuration whose mode is
open and whose trust sets are populated. -/
theorem disabled_trust_and_metadata_witness :
    cfgDisabled.enabled = false ∧
    (trustsInstance cfgDisabled "https://b.example" = false ∧
      getMetadata cfgDisabled =
        { enabled := false, inbox := none, outbox := none, trustMode := .closed }) :=
  ⟨rfl, disabled_trust_and_metadata cfgDisabled "https://b.example" rfl⟩

/-- C6: with a configured signing key, signEvent succeeds and
verifyEventSignature recovers the signer identity derived from that key;
and verifyEventSignature returns none (rather than raising) on any event
whose signature is not a signature over its canonical payload. -/
theorem sign_then_verify (config : FederationConfig) (e : UnsignedEvent) (key : Nat)
    (hkey : config.signingKey = some key) :
    (∃ ev, signEvent config e = .ok ev ∧
      verifyEventSignature ev = some (walletAddress key)) ∧
    (∀ ev : FederationEvent,
      (∀ k, ev.signature ≠
          signMessageSync k
            (canonicalMessage ev.type ev.origin ev.timestamp ev.object)) →
      verifyEventSignature ev = none) := by
  constructor
  · refine
      ⟨{ type := e.type, origin := e.origin, timestamp := e.timestamp
         object := e.object
         signature :=
           signMessageSync key
             (canonicalMessage e.type e.origin e.timestamp e.object) }, ?_, ?_⟩
    · simp [signEvent, hkey]
    · simp [verifyEventSignature, verifyMessage, signMessageSync]
  · intro ev hmismatch
    unfold verifyEventSignature verifyMessage
    cases hsig : ev.signature with
    | malformed => rfl
    | wellFormed k m =>
      rcases eq_or_ne m
          (canonicalMessage ev.type ev.origin ev.timestamp ev.object) with he | he
      · exact absurd (by rw [hsig, he]; rfl) (hmismatch k)
      · simp [he]

/-- Witness for C6 at signing key 7 and a malformed-signature event. -/
theorem sign_then_verify_witness :
    cfgSigner.signingKey = some 7 ∧
    (∃ ev, signEvent cfgSigner unsignedSample = .ok ev ∧
      verifyEventSignature ev = some (walletAddress 7)) ∧
    verifyEventSignature malformedSample = none :=
  ⟨rfl, (sign_then_verify cfgSigner unsignedSample 7 rfl).1,
    (sign_then_verify cfgSigner unsignedSample 7 rfl).2 malformedSample
      (fun _ h => by simp [malformedSample, signMessageSync] at h)⟩

/-- One allow or block call preserves disjointness of the trust sets. -/
theorem disjoint_applyTrustOp (t : InstanceTrust) (op : TrustOp)
    (h : Disjoint t.allowlist t.blocklist) :
    Disjoint (applyTrustOp t op).allowlist (applyTrustOp t op).blocklist := by
  rw [Finset.disjoint_left] at h
  cases op with
  | allow uri =>
    simp only [applyTrustOp, allowInstance]
    rw [Finset.disjoint_left]
    intro x hx
    rcases Finset.mem_insert.1 hx with rfl | hxA
    · exact Finset.not_mem_erase x _
    · exact fun hxB => h hxA (Finset.mem_of_mem_erase hxB)
  | block uri =>
    simp only [applyTrustOp, blockInstance]
    rw [Finset.disjoint_left]
    intro x hx
    intro hxB
    rcases Finset.mem_insert.1 hxB with rfl | hxBl
    · exact Finset.not_mem_erase x _ hx
    · exact h (Finset.mem_of_mem_erase hx) hxBl

/-- A sequence of allow/block calls preserves disjointness of the trust
sets. -/
theorem disjoint_applyTrustOps (ops : List TrustOp) (t : InstanceTrust)
    (h : Disjoint t.allowlist t.blocklist) :
    Disjoint (applyTrustOps t ops).allowlist (applyTrustOps t ops).blocklist := by
  induction ops generalizing t with
  | nil => exact h
  | cons op rest ih =>
    have hstep := disjoint_applyTrustOp t op h
    simpa [applyTrustOps, List.foldl_cons] using ih (applyTrustOp t op) hstep

/-- C8: allowInstance puts the URI in the allowlist and out of the
blocklist; blockInstance does the reverse; both are idempotent; and any
sequence of these operations preserves disjointness of the two sets. -/
theorem allow_block_exclusive (t : InstanceTrust) (uri : String) :
    (uri ∈ (allowInstance t uri).allowlist ∧
      uri ∉ (allowInstance t uri).blocklist) ∧
    (uri ∈ (blockInstance t uri).blocklist ∧
      uri ∉ (blockInstance t uri).allowlist) ∧
    (allowInstance (allowInstance t uri) uri = allowInstance t uri ∧
      blockInstance (blockInstance t uri) uri = blockInstance t uri) ∧
    (∀ ops : List TrustOp, Disjoint t.allowlist t.blocklist →
      Disjoint (applyTrustOps t ops).allowlist (applyTrustOps t ops).blocklist) := by
  refine ⟨⟨?_, ?_⟩, ⟨?_, ?_⟩, ⟨?_, ?_⟩, fun ops h => disjoint_applyTrustOps ops t h⟩
  · exact Finset.mem_insert_self uri _
  · exact Finset.not_mem_erase uri _
  · exact Finset.mem_insert_self uri _
  · exact Finset.not_mem_erase uri _
  · simp [allowInstance, Finset.insert_idem, Finset.erase_idem]
  · simp [blockInstance, Finset.insert_idem, Finset.erase_idem]

/-- Witness for C8 at a concrete trust state and mutation sequence. -/
theorem allow_block_exclusive_witness :
    ((("https://d.example" ∈ (allowInstance trustSample "https://d.example").allowlist ∧
        "https://d.example" ∉ (allowInstance trustSample "https://d.example").blocklist) ∧
      ("https://d.example" ∈ (blockInstance trustSample "https://d.example").blocklist ∧
        "https://d.example" ∉ (blockInstance trustSample "https://d.example").allowlist) ∧
      (allowInstance (allowInstance trustSample "https://d.example") "https://d.example" =
          allowInstance trustSample "https://d.example" ∧
        blockInstance (blockInstance trustSample "https://d.example") "https://d.example" =
          blockInstance trustSample "https://d.example") ∧
      (∀ ops : List TrustOp, Disjoint trustSample.allowlist trustSample.blocklist →
        Disjoint (applyTrustOps trustSample ops).allowlist
          (applyTrustOps trustSample ops).blocklist))) ∧
    Disjoint trustSample.allowlist trustSample.blocklist ∧
    Disjoint (applyTrustOps trustSample trustOpsSample).allowlist
      (applyTrustOps trustSample trustOpsSample).blocklist :=
  ⟨allow_block_exclusive trustSample "https://d.example", by decide,
    (allow_block_exclusive trustSample "https://d.example").2.2.2 trustOpsSample
      (by decide)⟩

/-- C9: once the inbound checks accept an event, every registered listener
is invoked exactly once in registration order, a thrown listener exception
is caught without stopping the remaining listeners, and the call still
returns accepted. -/
theorem inbound_listener_dispatch (config : FederationConfig)
    (listeners : List Listener) (event : FederationEvent) (sourceInstance : String)
    (h : (inboundCheck config event sourceInstance).accepted = true) :
    (processInboundEvent config listeners event sourceInstance).1.accepted = true ∧
    (processInboundEvent config listeners event sourceInstance).2.length =
      listeners.length ∧
    ∀ pre l post, listeners = pre ++ l :: post →
      (processInboundEvent config listeners event sourceInstance).2 =
        pre.map (listenerOutcome event) ++
          listenerOutcome event l :: post.map (listenerOutcome event) := by
  refine ⟨?_, ?_, ?_⟩
  · simp [processInboundEvent, h]
  · simp [processInboundEvent, h, notifyListeners]
  · intro pre l post hsplit
    subst hsplit
    simp [processInboundEvent, h, notifyListeners]

/-- Witness for C9: a throwing listener between two normal ones is caught,
all three run, and the event is still accepted. -/
theorem inbound_listener_dispatch_witness :
    (inboundCheck cfgOpenE evInbound "https://x.example").accepted = true ∧
    (processInboundEvent cfgOpenE listenersSample evInbound
        "https://x.example").1.accepted = true ∧
    (processInboundEvent cfgOpenE listenersSample evInbound
        "https://x.example").2.length = listenersSample.length ∧
    (processInboundEvent cfgOpenE listenersSample evInbound "https://x.example").2 =
      [.ran, .errorLogged "boom", .ran] := by
  have happ :=
    inbound_listener_dispatch cfgOpenE listenersSample evInbound "https://x.example"
      (by decide)
  refine ⟨by decide, happ.1, happ.2.1, ?_⟩
  rw [happ.2.2 [goodListener] badListener [goodListener] rfl]
  decide

/-- C1 (amended): for a trusted source with matching origin, the
invalid-signature rejection fires exactly when signature verification
recovers no identity, and then no listener is invoked; an envelope whose
signature verifies to any identity is accepted and dispatched, with no
comparison of that identity against the origin's expected identity. -/
theorem inbound_signature_gate (config : FederationConfig)
    (listeners : List Listener) (event : FederationEvent) (sourceInstance : String)
    (hen : config.enabled = true)
    (htrust : trustsInstance config sourceInstance = true)
    (horigin : event.origin = sourceInstance) :
    (verifyEventSignature event = none →
      processInboundEvent config listeners event sourceInstance =
        ({ accepted := false, reason := some "Invalid signature" }, [])) ∧
    (∀ ident, verifyEventSignature event = some ident →
      (processInboundEvent config listeners event sourceInstance).1.accepted = true ∧
      (processInboundEvent config listeners event sourceInstance).2 =
        notifyListeners listeners event) := by
  constructor
  · intro hv
    simp [processInboundEvent, inboundCheck, hen, htrust, horigin, hv]
  · intro ident hv
    constructor <;> simp [processInboundEvent, inboundCheck, hen, htrust, horigin, hv]

/-- Witness for the amended C1: a malformed signature from a trusted
matching origin is rejected as invalid-signature and dispatched to no
listener. -/
theorem inbound_signature_gate_witness :
    cfgOpenE.enabled = true ∧
    trustsInstance cfgOpenE "https://a.example" = true ∧
    malformedSample.origin = "https://a.example" ∧
    ((verifyEventSignature malformedSample = none →
      processInboundEvent cfgOpenE listenersSample malformedSample "https://a.example" =
        ({ accepted := false, reason := some "Invalid signature" }, [])) ∧
    (∀ ident, verifyEventSignature malformedSample = some ident →
      (processInboundEvent cfgOpenE listenersSample malformedSample
          "https://a.example").1.accepted = true ∧
      (processInboundEvent cfgOpenE listenersSample malformedSample
          "https://a.example").2 = notifyListeners listenersSample malformedSample)) :=
  ⟨rfl, by decide, rfl,
    inbound_signature_gate cfgOpenE listenersSample malformedSample "https://a.example"
      rfl (by decide) rfl⟩

/-- Counterexample to C1 as stated: a forged envelope with origin x whose
signature verifies to the attacker's identity (walletAddress 2, where x's
own key is 1 so x's identity is walletAddress 1) is accepted by
processInboundEvent and dispatched to every listener, not rejected with an
invalid-signature reason. -/
theorem forged_origin_accepted_counterexample :
    trustsInstance cfgOpenE "https://x.example" = true ∧
    evForged.origin = "https://x.example" ∧
    verifyEventSignature evForged = some (walletAddress 2) ∧
    walletAddress 2 ≠ walletAddress 1 ∧
    (processInboundEvent cfgOpenE listenersSample evForged "https://x.example").1 =
      { accepted := true, reason := none } ∧
    (processInboundEvent cfgOpenE listenersSample evForged "https://x.example").2 =
      [.ran, .errorLogged "boom", .ran] := by
  decide

/-- A failing push on a due pending attempt strictly below the retry
budget keeps the attempt pending, advances the count and last-attempt
time, records the error, and reschedules by the backoff ladder indexed by
the pre-increment count clamped to the ladder's end. -/
theorem stepDeliveryAttempt_fail_reschedule (uri eid : String) (c la na now : Nat)
    (le0 : Option String) (err : String)
    (hdue : na ≤ now) (hc : c + 1 < MAX_RETRY_ATTEMPTS) :
    stepDeliveryAttempt now true (.failure err)
        { instanceUri := uri, eventId := eid, attemptCount := c, lastAttempt := la
          nextAttempt := na, status := .pending, lastError := le0 } =
      some
        { instanceUri := uri, eventId := eid, attemptCount := c + 1
          lastAttempt := now
          nextAttempt :=
            now + RETRY_BACKOFF_MS.getD (min c (RETRY_BACKOFF_MS.length - 1)) 0
          status := .pending, lastError := some err } := by
  have hnl : ¬(now < na) := Nat.not_lt.2 hdue
  have hm : ¬(MAX_RETRY_ATTEMPTS ≤ c + 1) := Nat.not_le.2 hc
  unfold stepDeliveryAttempt
  simp [hnl, hm]

/-- A failing push on a due pending attempt that reaches the retry budget
marks the attempt failed with the error recorded, leaving the scheduled
next-attempt time as it was. -/
theorem stepDeliveryAttempt_fail_exhaust (uri eid : String) (c la na now : Nat)
    (le0 : Option String) (err : String)
    (hdue : na ≤ now) (hc : MAX_RETRY_ATTEMPTS ≤ c + 1) :
    stepDeliveryAttempt now true (.failure err)
        { instanceUri := uri, eventId := eid, attemptCount := c, lastAttempt := la
          nextAttempt := na, status := .pending, lastError := le0 } =
      some
        { instanceUri := uri, eventId := eid, attemptCount := c + 1
          lastAttempt := now, nextAttempt := na
          status := .failed, lastError := some err } := by
  have hnl : ¬(now < na) := Nat.not_lt.2 hdue
  unfold stepDeliveryAttempt
  simp [hnl, hc]

/-- A non-pending (delivered or failed) attempt is skipped unchanged by
every later drain cycle. -/
theorem stepDeliveryAttempt_skips_terminal (now : Nat) (ex : Bool)
    (res : PushResult) (a : DeliveryAttempt) (h : a.status ≠ .pending) :
    stepDeliveryAttempt now ex res a = some a := by
  unfold stepDeliveryAttempt
  rw [if_pos (Or.inl h)]

/-- C3: an attempt created fresh whose push fails on five consecutive
drain cycles stays pending through the first four failures, each time
rescheduled to the cycle time plus the ladder entry indexed by the
pre-increment attempt count (1s, 5s, 30s, 2m), becomes failed on the fifth
failure with the last error recorded, and is skipped unchanged by every
subsequent cycle. -/
theorem delivery_retry_ladder (uri eid : String) (now0 t1 t2 t3 t4 t5 : Nat)
    (e1 e2 e3 e4 e5 : String)
    (h1 : now0 ≤ t1) (h2 : t1 + 1000 ≤ t2) (h3 : t2 + 5000 ≤ t3)
    (h4 : t3 + 30000 ≤ t4) (h5 : t4 + 120000 ≤ t5) :
    stepDeliveryAttempt t1 true (.failure e1) (freshAttempt uri eid now0) =
      some
        { instanceUri := uri, eventId := eid, attemptCount := 1, lastAttempt := t1
          nextAttempt := t1 + 1000, status := .pending, lastError := some e1 } ∧
    stepDeliveryAttempt t2 true (.failure e2)
        { instanceUri := uri, eventId := eid, attemptCount := 1, lastAttempt := t1
          nextAttempt := t1 + 1000, status := .pending, lastError := some e1 } =
      some
        { instanceUri := uri, eventId := eid, attemptCount := 2, lastAttempt := t2
          nextAttempt := t2 + 5000, status := .pending, lastError := some e2 } ∧
    stepDeliveryAttempt t3 true (.failure e3)
        { instanceUri := uri, eventId := eid, attemptCount := 2, lastAttempt := t2
          nextAttempt := t2 + 5000, status := .pending, lastError := some e2 } =
      some
        { instanceUri := uri, eventId := eid, attemptCount := 3, lastAttempt := t3
          nextAttempt := t3 + 30000, status := .pending, lastError := some e3 } ∧
    stepDeliveryAttempt t4 true (.failure e4)
        { instanceUri := uri, eventId := eid, attemptCount := 3, lastAttempt := t3
          nextAttempt := t3 + 30000, status := .pending, lastError := some e3 } =
      some
        { instanceUri := uri, eventId := eid, attemptCount := 4, lastAttempt := t4
          nextAttempt := t4 + 120000, status := .pending, lastError := some e4 } ∧
    stepDeliveryAttempt t5 true (.failure e5)
        { instanceUri := uri, eventId := eid, attemptCount := 4, lastAttempt := t4
          nextAttempt := t4 + 120000, status := .pending, lastError := some e4 } =
      some
        { instanceUri := uri, eventId := eid, attemptCount := 5, lastAttempt := t5
          nextAttempt := t4 + 120000, status := .failed, lastError := some e5 } ∧
    (∀ now ex res,
      stepDeliveryAttempt now ex res
          { instanceUri := uri, eventId := eid, attemptCount := 5, lastAttempt := t5
            nextAttempt := t4 + 120000, status := .failed, lastError := some e5 } =
        some
          { instanceUri := uri, eventId := eid, attemptCount := 5, lastAttempt := t5
            nextAttempt := t4 + 120000, status := .failed, lastError := some e5 }) := by
  refine ⟨?_, ?_, ?_, ?_, ?_, ?_⟩
  · exact stepDeliveryAttempt_fail_reschedule uri eid 0 0 now0 t1 none e1 h1 (by decide)
  · exact stepDeliveryAttempt_fail_reschedule uri eid 1 t1 (t1 + 1000) t2 (some e1) e2
      h2 (by decide)
  · exact stepDeliveryAttempt_fail_reschedule uri eid 2 t2 (t2 + 5000) t3 (some e2) e3
      h3 (by decide)
  · exact stepDeliveryAttempt_fail_reschedule uri eid 3 t3 (t3 + 30000) t4 (some e3) e4
      h4 (by decide)
  · exact stepDeliveryAttempt_fail_exhaust uri eid 4 t4 (t4 + 120000) t5 (some e4) e5
      h5 (by decide)
  · exact fun now ex res =>
      stepDeliveryAttempt_skips_terminal now ex res _ (by simp)

/-- Witness for C3 with cycle times 0, 1s, 6s, 36s, 156s and errors
x1 through x5. -/
theorem delivery_retry_ladder_witness :
    ((0:Nat) ≤ 0 ∧ 0 + 1000 ≤ (1000:Nat) ∧ 1000 + 5000 ≤ (6000:Nat) ∧
      6000 + 30000 ≤ (36000:Nat) ∧ 36000 + 120000 ≤ (156000:Nat)) ∧
    (stepDeliveryAttempt 0 true (.failure "x1")
        (freshAttempt "https://b.example" "e1" 0) =
      some
        { instanceUri := "https://b.example", eventId := "e1", attemptCount := 1
          lastAttempt := 0, nextAttempt := 1000
          status := .pending, lastError := some "x1" } ∧
    stepDeliveryAttempt 1000 true (.failure "x2")
        { instanceUri := "https://b.example", eventId := "e1", attemptCount := 1
          lastAttempt := 0, nextAttempt := 1000
          status := .pending, lastError := some "x1" } =
      some
        { instanceUri := "https://b.example", eventId := "e1", attemptCount := 2
          lastAttempt := 1000, nextAttempt := 6000
          status := .pending, lastError := some "x2" } ∧
    stepDeliveryAttempt 6000 true (.failure "x3")
        { instanceUri := "https://b.example", eventId := "e1", attemptCount := 2
          lastAttempt := 1000, nextAttempt := 6000
          status := .pending, lastError := some "x2" } =
      some
        { instanceUri := "https://b.example", eventId := "e1", attemptCount := 3
          lastAttempt := 6000, nextAttempt := 36000
          status := .pending, lastError := some "x3" } ∧
    stepDeliveryAttempt 36000 true (.failure "x4")
        { instanceUri := "https://b.example", eventId := "e1", attemptCount := 3
          lastAttempt := 6000, nextAttempt := 36000
          status := .pending, lastError := some "x3" } =
      some
        { instanceUri := "https://b.example", eventId := "e1", attemptCount := 4
          lastAttempt := 36000, nextAttempt := 156000
          status := .pending, lastError := some "x4" } ∧
    stepDeliveryAttempt 156000 true (.failure "x5")
        { instanceUri := "https://b.example", eventId := "e1", attemptCount := 4
          lastAttempt := 36000, nextAttempt := 156000
          status := .pending, lastError := some "x4" } =
      some
        { instanceUri := "https://b.example", eventId := "e1", attemptCount := 5
          lastAttempt := 156000, nextAttempt := 156000
          status := .failed, lastError := some "x5" } ∧
    (∀ now ex res,
      stepDeliveryAttempt now ex res
          { instanceUri := "https://b.example", eventId := "e1", attemptCount := 5
            lastAttempt := 156000, nextAttempt := 156000
            status := .failed, lastError := some "x5" } =
        some
          { instanceUri := "https://b.example", eventId := "e1", attemptCount := 5
            lastAttempt := 156000, nextAttempt := 156000
            status := .failed, lastError := some "x5" })) :=
  ⟨by decide,
    delivery_retry_ladder "https://b.example" "e1" 0 0 1000 6000 36000 156000
      "x1" "x2" "x3" "x4" "x5" (by decide) (by decide) (by decide) (by decide)
      (by decide)⟩

/-- The clamped page limit is always positive (the JavaScript or-default
turns 0 into 50 before the cap of 200 applies). -/
theorem computeLimit_pos (limitOpt : Option Nat) : 0 < computeLimit limitOpt := by
  unfold computeLimit
  rcases limitOpt with _ | n
  · decide
  · cases n with
    | zero => decide
    | succ m => exact lt_min (Nat.succ_pos m) (by norm_num)

/-- Once the cursor has been passed, the collection loop returns the
next events of the log, up to the room left under the limit. -/
theorem collectSince_true_take (since : Option String)
    (l : List (String × OutboxEvent)) :
    ∀ (limit : Nat) (acc : List FederationEvent) (cursor : Option String),
      acc.length < limit →
      (collectSince since l true limit acc cursor).1 =
        acc ++ ((l.map fun p => p.2.event).take (limit - acc.length)) := by
  induction l with
  | nil => intro limit acc cursor _; simp [collectSince]
  | cons p rest ih =>
    intro limit acc cursor h
    obtain ⟨id, entry⟩ := p
    rw [collectSince]
    simp only [Bool.not_true, Bool.false_eq_true, if_false]
    by_cases hlen : (acc ++ [entry.event]).length ≥ limit
    · rw [if_pos hlen]
      have hl : limit - acc.length = 1 := by
        simp only [List.length_append, List.length_singleton] at hlen
        omega
      simp [hl]
    · rw [if_neg hlen]
      have hlt : (acc ++ [entry.event]).length < limit := Nat.lt_of_not_le hlen
      rw [ih limit (acc ++ [entry.event]) (some id) hlt]
      have hgt : limit - acc.length = (limit - (acc.length + 1)) + 1 := by
        simp only [List.length_append, List.length_singleton] at hlt
        omega
      simp [hgt, List.take_succ_cons]

/-- While the cursor has not matched, entries whose id differs from the
cursor are skipped without contributing events. -/
theorem collectSince_skip_until (c : String) (post : List (String × OutboxEvent)) :
    ∀ (pre : List (String × OutboxEvent)) (limit : Nat)
      (acc : List FederationEvent) (cursor : Option String),
      (∀ p ∈ pre, p.1 ≠ c) →
      collectSince (some c) (pre ++ post) false limit acc cursor =
        collectSince (some c) post false limit acc cursor := by
  intro pre
  induction pre with
  | nil => intro _ _ _ _; simp
  | cons p rest ih =>
    intro limit acc cursor hp
    obtain ⟨id, entry⟩ := p
    have hid : id ≠ c := hp (id, entry) (List.mem_cons_self _ _)
    rw [List.cons_append, collectSince]
    simp only [Bool.not_false, if_true, Option.some.injEq, hid, decide_False]
    exact ih limit acc cursor fun q hq => hp q (List.mem_cons_of_mem _ hq)

/-- The entry carrying the cursor id flips the found flag and is itself
skipped. -/
theorem collectSince_found (c : String) (entry : OutboxEvent)
    (post : List (String × OutboxEvent)) (limit : Nat)
    (acc : List FederationEvent) (cursor : Option String) :
    collectSince (some c) ((c, entry) :: post) false limit acc cursor =
      collectSince (some c) post true limit acc cursor := by
  rw [collectSince]
  simp

/-- C4 (amended): paging with a since cursor that occurs in the log (at its
first occurrence) returns exactly the events strictly after the cursor
entry, truncated to the clamped limit — never an event at or before the
cursor; but a cursor id not present in the log yields the empty page, not a
page from the beginning of the log. -/
theorem getOutboxEvents_cursor_semantics (queue : List (String × OutboxEvent))
    (limitOpt : Option Nat) (c : String) :
    (∀ pre entry post,
      queue = pre ++ (c, entry) :: post →
      (∀ p ∈ pre, p.1 ≠ c) →
      (getOutboxEvents queue (some c) limitOpt).1 =
        (post.map fun p => p.2.event).take (computeLimit limitOpt)) ∧
    ((∀ p ∈ queue, p.1 ≠ c) →
      getOutboxEvents queue (some c) limitOpt = ([], none)) := by
  constructor
  · intro pre entry post hq hpre
    subst hq
    unfold getOutboxEvents
    simp only [Option.isNone_some]
    rw [collectSince_skip_until c ((c, entry) :: post) pre _ [] none hpre]
    rw [collectSince_found]
    rw [collectSince_true_take (some c) post _ [] none
      (by simpa using computeLimit_pos limitOpt)]
    simp
  · intro hnone
    unfold getOutboxEvents
    simp only [Option.isNone_some]
    rw [show queue = queue ++ [] by simp,
      collectSince_skip_until c [] queue _ [] none (by simpa using hnone)]
    simp [collectSince]

/-- Witness for the amended C4 at a concrete one-entry log: paging past
the only entry yields the empty page, and paging with an absent cursor
also yields the empty page. -/
theorem getOutboxEvents_cursor_semantics_witness :
    (queueSample = [] ++ ("https://a.example/outbox/1", obEntrySample) :: [] ∧
      (getOutboxEvents queueSample (some "https://a.example/outbox/1") none).1 =
        (([] : List (String × OutboxEvent)).map fun p => p.2.event).take
          (computeLimit none)) ∧
    (getOutboxEvents queueSample (some "https://a.example/outbox/999") none =
      ([], none)) :=
  ⟨⟨rfl,
      (getOutboxEvents_cursor_semantics queueSample none
            "https://a.example/outbox/1").1
        [] obEntrySample [] rfl (by simp)⟩,
    (getOutboxEvents_cursor_semantics queueSample none
          "https://a.example/outbox/999").2
      (by decide)⟩

/-- Counterexample to C4 as stated: with a cursor id absent from the log,
getOutboxEvents returns the empty page rather than starting from the
beginning of the log (the page the claim requires is the since-less one,
which is nonempty here). -/
theorem outbox_unknown_cursor_counterexample :
    getOutboxEvents queueSample (some "https://a.example/outbox/999") none =
      ([], none) ∧
    getOutboxEvents queueSample none none =
      ([evInbound], some "https://a.example/outbox/1") ∧
    ([] : List FederationEvent) ≠ [evInbound] := by
  decide

/-- Enqueueing one target never removes an existing key. -/
theorem hasDeliveryKey_enqueueTarget_mono (eid : String) (now : Nat)
    (q : List (String × DeliveryAttempt)) (uri k : String)
    (h : hasDeliveryKey q k = true) :
    hasDeliveryKey (enqueueTarget eid now q uri) k = true := by
  by_cases hk : hasDeliveryKey q (deliveryKey uri eid)
  · simpa [enqueueTarget, hk]
  · simp only [enqueueTarget, hk, if_false]
    simp only [hasDeliveryKey, List.any_append] at h ⊢
    simp [h]

/-- After enqueueing a target, its key is present. -/
theorem hasDeliveryKey_enqueueTarget_self (eid : String) (now : Nat)
    (q : List (String × DeliveryAttempt)) (uri : String) :
    hasDeliveryKey (enqueueTarget eid now q uri) (deliveryKey uri eid) = true := by
  simp only [enqueueTarget]
  by_cases hk : hasDeliveryKey q (deliveryKey uri eid)
  · simp [hk]
  · rw [if_neg hk]
    simp [hasDeliveryKey, List.any_append]

/-- queueForDelivery never removes an existing key. -/
theorem hasDeliveryKey_queueForDelivery_mono (eid : String) (now : Nat)
    (targets : List String) :
    ∀ (q : List (String × DeliveryAttempt)) (k : String),
      hasDeliveryKey q k = true →
      hasDeliveryKey (queueForDelivery q eid now targets) k = true := by
  induction targets with
  | nil => intro q k h; exact h
  | cons uri rest ih =>
    intro q k h
    exact ih (enqueueTarget eid now q uri) k
      (hasDeliveryKey_enqueueTarget_mono eid now q uri k h)

/-- After queueForDelivery, every target's key is present. -/
theorem hasDeliveryKey_queueForDelivery_self (eid : String) (now : Nat)
    (targets : List String) :
    ∀ (q : List (String × DeliveryAttempt)) (uri : String), uri ∈ targets →
      hasDeliveryKey (queueForDelivery q eid now targets) (deliveryKey uri eid) =
        true := by
  induction targets with
  | nil => intro q uri h; cases h
  | cons u rest ih =>
    intro q uri h
    rcases List.mem_cons.1 h with rfl | hmem
    · exact hasDeliveryKey_queueForDelivery_mono eid now rest _ _
        (hasDeliveryKey_enqueueTarget_self eid now q uri)
    · exact ih (enqueueTarget eid now q u) uri hmem

/-- queueForDelivery is a no-op when every target's key is already
present. -/
theorem queueForDelivery_noop (eid : String) (now : Nat) (targets : List String) :
    ∀ (q : List (String × DeliveryAttempt)),
      (∀ uri ∈ targets, hasDeliveryKey q (deliveryKey uri eid) = true) →
      queueForDelivery q eid now targets = q := by
  induction targets with
  | nil => intro q _; rfl
  | cons u rest ih =>
    intro q h
    have hu : enqueueTarget eid now q u = q := by
      simp [enqueueTarget, h u (List.mem_cons_self _ _)]
    calc queueForDelivery q eid now (u :: rest)
        = queueForDelivery (enqueueTarget eid now q u) eid now rest := rfl
      _ = queueForDelivery q eid now rest := by rw [hu]
      _ = q := ih q fun uri hm => h uri (List.mem_cons_of_mem _ hm)

/-- Every entry after queueForDelivery either was already in the queue or
is a freshly created attempt for one of the targets. -/
theorem queueForDelivery_entries (eid : String) (now : Nat) (targets : List String) :
    ∀ (q : List (String × DeliveryAttempt)) (p : String × DeliveryAttempt),
      p ∈ queueForDelivery q eid now targets →
      p ∈ q ∨
        (p.1 = deliveryKey p.2.instanceUri eid ∧
          p.2 = freshAttempt p.2.instanceUri eid now ∧
          p.2.instanceUri ∈ targets) := by
  induction targets with
  | nil => intro q p h; exact Or.inl h
  | cons u rest ih =>
    intro q p h
    rcases ih (enqueueTarget eid now q u) p h with hin | hfresh
    · by_cases hk : hasDeliveryKey q (deliveryKey u eid)
      · rw [enqueueTarget, if_pos hk] at hin
        exact Or.inl hin
      · rw [enqueueTarget, if_neg hk] at hin
        rcases List.mem_append.1 hin with hin | hin
        · exact Or.inl hin
        · rcases List.mem_singleton.1 hin with rfl
          exact Or.inr ⟨rfl, rfl, List.mem_cons_self _ _⟩
    · exact Or.inr ⟨hfresh.1, hfresh.2.1, List.mem_cons_of_mem _ hfresh.2.2⟩

/-- Enqueueing one target keeps the key list duplicate-free. -/
theorem nodup_keys_enqueueTarget (eid : String) (now : Nat)
    (q : List (String × DeliveryAttempt)) (uri : String)
    (h : (q.map Prod.fst).Nodup) :
    ((enqueueTarget eid now q uri).map Prod.fst).Nodup := by
  by_cases hk : hasDeliveryKey q (deliveryKey uri eid)
  · simpa [enqueueTarget, hk]
  · have hnotin : deliveryKey uri eid ∉ q.map Prod.fst := by
      intro hmem
      rcases List.mem_map.1 hmem with ⟨p, hp, hpk⟩
      simp only [hasDeliveryKey, List.any_eq_true, decide_eq_true_eq] at hk
      exact hk ⟨p, hp, hpk⟩
    simp [enqueueTarget, hk, List.nodup_append, h, List.disjoint_singleton, hnotin]

/-- queueForDelivery keeps the key list duplicate-free, so each
(target, event) pair has at most one queue entry. -/
theorem nodup_keys_queueForDelivery (eid : String) (now : Nat)
    (targets : List String) :
    ∀ (q : List (String × DeliveryAttempt)), (q.map Prod.fst).Nodup →
      ((queueForDelivery q eid now targets).map Prod.fst).Nodup := by
  induction targets with
  | nil => intro q h; exact h
  | cons u rest ih =>
    intro q h
    exact ih (enqueueTarget eid now q u) (nodup_keys_enqueueTarget eid now q u h)

/-- C7: a second queueForDelivery call for the same event and targets
leaves the queue unchanged; every entry not previously present is a fresh
attempt — status pending, zero attempts, next attempt now, keyed by its
(instance, event) pair — and distinct keys stay distinct, so each pair has
exactly one entry. -/
theorem queueForDelivery_idempotent_fresh (q : List (String × DeliveryAttempt))
    (eid : String) (now now2 : Nat) (targets : List String) :
    queueForDelivery (queueForDelivery q eid now targets) eid now2 targets =
      queueForDelivery q eid now targets ∧
    (∀ p ∈ queueForDelivery q eid now targets,
      p ∈ q ∨
        (p.1 = deliveryKey p.2.instanceUri eid ∧ p.2.eventId = eid ∧
          p.2.status = .pending ∧ p.2.attemptCount = 0 ∧ p.2.nextAttempt = now ∧
          p.2.instanceUri ∈ targets)) ∧
    ((q.map Prod.fst).Nodup →
      ((queueForDelivery q eid now targets).map Prod.fst).Nodup) := by
  refine ⟨?_, ?_, fun h => nodup_keys_queueForDelivery eid now targets q h⟩
  · exact queueForDelivery_noop eid now2 targets _
      fun uri hm => hasDeliveryKey_queueForDelivery_self eid now targets q uri hm
  · intro p hp
    rcases queueForDelivery_entries eid now targets q p hp with hin | ⟨hk, hfresh, hmem⟩
    · exact Or.inl hin
    · refine Or.inr ⟨hk, ?_, ?_, ?_, ?_, hmem⟩ <;> rw [hfresh] <;> rfl

/-- Witness for C7 at a concrete empty queue and two targets. -/
theorem queueForDelivery_idempotent_fresh_witness :
    (queueForDelivery
        (queueForDelivery [] "e1" 5 ["https://b.example", "https://c.example"])
        "e1" 9 ["https://b.example", "https://c.example"] =
      queueForDelivery [] "e1" 5 ["https://b.example", "https://c.example"]) ∧
    (∀ p ∈ queueForDelivery ([] : List (String × DeliveryAttempt)) "e1" 5
        ["https://b.example", "https://c.example"],
      p ∈ ([] : List (String × DeliveryAttempt)) ∨
        (p.1 = deliveryKey p.2.instanceUri "e1" ∧ p.2.eventId = "e1" ∧
          p.2.status = .pending ∧ p.2.attemptCount = 0 ∧ p.2.nextAttempt = 5 ∧
          p.2.instanceUri ∈ ["https://b.example", "https://c.example"])) ∧
    ((([] : List (String × DeliveryAttempt)).map Prod.fst).Nodup →
      ((queueForDelivery ([] : List (String × DeliveryAttempt)) "e1" 5
          ["https://b.example", "https://c.example"]).map Prod.fst).Nodup) ∧
    ((queueForDelivery ([] : List (String × DeliveryAttempt)) "e1" 5
        ["https://b.example", "https://c.example"]).map Prod.fst).Nodup :=
  ⟨(queueForDelivery_idempotent_fresh [] "e1" 5 9
      ["https://b.example", "https://c.example"]).1,
    (queueForDelivery_idempotent_fresh [] "e1" 5 9
      ["https://b.example", "https://c.example"]).2.1,
    (queueForDelivery_idempotent_fresh [] "e1" 5 9
      ["https://b.example", "https://c.example"]).2.2,
    (queueForDelivery_idempotent_fresh [] "e1" 5 9
      ["https://b.example", "https://c.example"]).2.2 (by decide)⟩

/-- Persisting and reloading an instance record is the identity. -/
theorem toRemoteInstance_persistInstance (t : InstanceTrust) (i : RemoteInstance) :
    toRemoteInstance (persistInstance t i) = i := rfl

/-- Persisting and reloading an outbox entry is the identity. -/
theorem toOutboxEvent_persistOutboxEvent (e : OutboxEvent) :
    toOutboxEvent (persistOutboxEvent e) = e := rfl

/-- Persisting and reloading a delivery attempt is the identity. -/
theorem toDeliveryAttempt_persistDeliveryAttempt (k : String) (a : DeliveryAttempt) :
    toDeliveryAttempt (persistDeliveryAttempt k a) = a := rfl

/-- C5 (amended): over the persisted image of a manager state whose map
keys agree with their records, whose outbox fits the 1000-event load limit
and is stored in creation order, and whose delivery queue holds only
pending attempts due within the 24-hour load window, in next-attempt
order, a freshly constructed manager answers getKnownInstances,
getOutboxEvents and getDeliveryQueueStatus exactly as the original did
(and loadFromStorage performs no network call). Terminal (delivered or
failed) attempts are outside this guarantee: the load path restores only
pending rows, see the counterexample. -/
theorem restart_reconstruction (m : ManagerState) (now : Nat)
    (hkeys : ∀ p ∈ m.knownInstances, p.1 = p.2.uri)
    (houtid : ∀ p ∈ m.outboxQueue, p.1 = p.2.id)
    (houtlen : m.outboxQueue.length ≤ 1000)
    (houtsorted : List.Pairwise (fun p q => p.2.created ≤ q.2.created) m.outboxQueue)
    (hdel : ∀ p ∈ m.deliveryQueue,
      p.2.status = .pending ∧ p.2.nextAttempt ≤ now + 86400000)
    (hdelsorted :
      List.Pairwise (fun p q => p.2.nextAttempt ≤ q.2.nextAttempt) m.deliveryQueue) :
    getKnownInstances (loadFromStorage m.config now (persistedImage m)) =
      getKnownInstances m ∧
    (∀ since limitOpt,
      getOutboxEvents (loadFromStorage m.config now (persistedImage m)).outboxQueue
          since limitOpt =
        getOutboxEvents m.outboxQueue since limitOpt) ∧
    getDeliveryQueueStatus (loadFromStorage m.config now (persistedImage m)) =
      getDeliveryQueueStatus m := by
  have hki : (loadFromStorage m.config now (persistedImage m)).knownInstances =
      m.knownInstances := by
    simp only [loadFromStorage, persistedImage]
    rw [List.map_map]
    have h2 : ∀ p ∈ m.knownInstances,
        ((fun i : PersistedRemoteInstance => (i.uri, toRemoteInstance i)) ∘
            fun p : String × RemoteInstance =>
              persistInstance m.config.trust p.2) p = id p := by
      intro p hp
      show ((persistInstance m.config.trust p.2).uri,
        toRemoteInstance (persistInstance m.config.trust p.2)) = p
      rw [toRemoteInstance_persistInstance]
      show (p.2.uri, p.2) = p
      rw [← hkeys p hp]
    rw [List.map_congr_left h2, List.map_id]
  have hsort : (persistedImage m).outbox.insertionSort
      (fun a b => a.created ≤ b.created) = (persistedImage m).outbox := by
    apply List.Sorted.insertionSort_eq
    show List.Pairwise _ ((persistedImage m).outbox)
    simp only [persistedImage]
    rw [List.pairwise_map]
    exact houtsorted
  have hstore : storeGetOutboxEvents (persistedImage m) (some 1000) none =
      (persistedImage m).outbox := by
    simp only [storeGetOutboxEvents, hsort]
    apply List.take_of_length_le
    simp only [persistedImage, List.length_map]
    simpa using houtlen
  have hout : (loadFromStorage m.config now (persistedImage m)).outboxQueue =
      m.outboxQueue := by
    simp only [loadFromStorage]
    rw [hstore]
    simp only [persistedImage]
    rw [List.map_map]
    have h2 : ∀ p ∈ m.outboxQueue,
        ((fun e : PersistedOutboxEvent => (e.id, toOutboxEvent e)) ∘
            fun p : String × OutboxEvent => persistOutboxEvent p.2) p = id p := by
      intro p hp
      show ((persistOutboxEvent p.2).id, toOutboxEvent (persistOutboxEvent p.2)) = p
      rw [toOutboxEvent_persistOutboxEvent]
      show (p.2.id, p.2) = p
      rw [← houtid p hp]
    rw [List.map_congr_left h2, List.map_id]
  have hfilter : (persistedImage m).deliveries.filter
      (fun a => decide (a.status = .pending) &&
        decide (a.nextAttempt ≤ now + 86400000)) = (persistedImage m).deliveries := by
    rw [List.filter_eq_self]
    intro a ha
    simp only [persistedImage, List.mem_map] at ha
    obtain ⟨p, hp, rfl⟩ := ha
    have := hdel p hp
    simp [persistDeliveryAttempt, this.1, this.2]
  have hdsort : (persistedImage m).deliveries.insertionSort
      (fun a b => a.nextAttempt ≤ b.nextAttempt) = (persistedImage m).deliveries := by
    apply List.Sorted.insertionSort_eq
    show List.Pairwise _ ((persistedImage m).deliveries)
    simp only [persistedImage]
    rw [List.pairwise_map]
    exact hdelsorted
  have hdstore : storeGetPendingDeliveries (persistedImage m) (now + 86400000) =
      (persistedImage m).deliveries := by
    simp only [storeGetPendingDeliveries, hfilter, hdsort]
  have hdq : (loadFromStorage m.config now (persistedImage m)).deliveryQueue =
      m.deliveryQueue := by
    simp only [loadFromStorage]
    rw [hdstore]
    simp only [persistedImage]
    rw [List.map_map]
    have h2 : ∀ p ∈ m.deliveryQueue,
        ((fun d : PersistedDeliveryAttempt => (d.key, toDeliveryAttempt d)) ∘
            fun p : String × DeliveryAttempt =>
              persistDeliveryAttempt p.1 p.2) p = id p := by
      intro p _
      show ((persistDeliveryAttempt p.1 p.2).key,
        toDeliveryAttempt (persistDeliveryAttempt p.1 p.2)) = p
      rw [toDeliveryAttempt_persistDeliveryAttempt]
      rfl
    rw [List.map_congr_left h2, List.map_id]
  refine ⟨?_, ?_, ?_⟩
  · simp [getKnownInstances, hki]
  · intro since limitOpt
    rw [hout]
  · simp [getDeliveryQueueStatus, hdq]

/-- Witness for the amended C5 at a concrete loadable manager state. -/
theorem restart_reconstruction_witness :
    ((∀ p ∈ mGood.knownInstances, p.1 = p.2.uri) ∧
      (∀ p ∈ mGood.outboxQueue, p.1 = p.2.id) ∧
      mGood.outboxQueue.length ≤ 1000 ∧
      List.Pairwise (fun p q => p.2.created ≤ q.2.created) mGood.outboxQueue ∧
      (∀ p ∈ mGood.deliveryQueue,
        p.2.status = .pending ∧ p.2.nextAttempt ≤ 2000 + 86400000) ∧
      List.Pairwise (fun p q => p.2.nextAttempt ≤ q.2.nextAttempt)
        mGood.deliveryQueue) ∧
    (getKnownInstances (loadFromStorage mGood.config 2000 (persistedImage mGood)) =
        getKnownInstances mGood ∧
      (∀ since limitOpt,
        getOutboxEvents
            (loadFromStorage mGood.config 2000 (persistedImage mGood)).outboxQueue
            since limitOpt =
          getOutboxEvents mGood.outboxQueue since limitOpt) ∧
      getDeliveryQueueStatus (loadFromStorage mGood.config 2000 (persistedImage mGood)) =
        getDeliveryQueueStatus mGood) :=
  ⟨⟨by decide, by decide, by decide, by decide, by decide, by decide⟩,
    restart_reconstruction mGood 2000 (by decide) (by decide) (by decide) (by decide)
      (by decide) (by decide)⟩

/-- Counterexample to C5 as stated: the persisted image of a manager
holding one delivered (terminal) attempt reloads with an empty delivery
queue, so the fresh manager's getDeliveryQueueStatus differs from the
original's (delivered count 0 instead of 1). -/
theorem restart_drops_terminal_counterexample :
    (getDeliveryQueueStatus mSample).delivered = 1 ∧
    (getDeliveryQueueStatus
        (loadFromStorage mSample.config 100 (persistedImage mSample))).delivered = 0 ∧
    getDeliveryQueueStatus (loadFromStorage mSample.config 100 (persistedImage mSample)) ≠
      getDeliveryQueueStatus mSample := by
  decide

end ASP
